import Mathlib

/-!
Verification development for the security-report analysis tool
(`backend-app/scripts/analyze-security-reports.py`).

The Python script is shallowly embedded here:
- Python `str`-or-`None` values are `Option String` (an XML element whose
  text is empty has `.text = None` in ElementTree, so scalar fields read
  from XML can be `None`; JSON-path fields always default to strings).
- Python dictionaries read with `.get(key, default)` are structures with
  `Option`-typed fields plus `Option.getD`.
- The two dispatch tables (`risk_map`, `priority_order`, `risk_order`)
  become if-chains mirroring `dict.get` with its default.
- Python `list.sort` (a stable sort) is modelled with `List.mergeSort`,
  which is stable for the same comparator.
- Python `list(set(...))` deduplicates with unspecified iteration order;
  it is modelled as first-occurrence-order deduplication (no claim below
  depends on that order).
- A raised exception that the script does not catch is modelled by an
  `Option`-valued result being `none`.
-/

namespace SecurityReports

/-! ## JSON report data model (parsed nested-object encoding) -/

structure JsonInstance where
  uri : Option String
deriving DecidableEq, Repr

structure JsonAlert where
  pluginid : Option String
  name : Option String
  riskdesc : Option String
  confidence : Option String
  desc : Option String
  solution : Option String
  reference : Option String
  instances : Option (List JsonInstance)
  cweid : Option String
  wascid : Option String
deriving DecidableEq, Repr

structure JsonSite where
  alerts : Option (List JsonAlert)
deriving DecidableEq, Repr

structure JsonReport where
  site : Option (List JsonSite)
deriving DecidableEq, Repr

/-! ## XML report data model (parsed tree/markup encoding).
An element has a tag, optional text (ElementTree yields `None` for an
element with no text content) and a list of child elements. -/

inductive XmlElem : Type where
  | node (tag : String) (text : Option String) (children : List XmlElem)

def XmlElem.tag : XmlElem → String
  | .node t _ _ => t

def XmlElem.text : XmlElem → Option String
  | .node _ tx _ => tx

def XmlElem.children : XmlElem → List XmlElem
  | .node _ _ cs => cs

/-- ElementTree `elem.find(t)` for a plain tag: first direct child tagged `t`. -/
def XmlElem.find (e : XmlElem) (t : String) : Option XmlElem :=
  e.children.find? (fun c => decide (c.tag = t))

/-- ElementTree `elem.findall(t)` for a plain tag: direct children tagged `t`. -/
def XmlElem.findDirect (e : XmlElem) (t : String) : List XmlElem :=
  e.children.filter (fun c => decide (c.tag = t))

/-- ElementTree `alert.findall(p)` for the two-step path
`instances/instance`: the `instance` children of each `instances` child. -/
def XmlElem.findInstancesPath (e : XmlElem) : List XmlElem :=
  (e.findDirect "instances").flatMap (fun i => i.findDirect "instance")

mutual

/-- ElementTree `root.findall(p)` for the descendant path `.//t`:
every element below `e` whose tag is `t`, in document order. -/
def XmlElem.descendantsWithTag (t : String) : XmlElem → List XmlElem
  | .node _ _ cs => XmlElem.descendantsListWithTag t cs

def XmlElem.descendantsListWithTag (t : String) : List XmlElem → List XmlElem
  | [] => []
  | c :: cs =>
    (if c.tag = t then [c] else []) ++ XmlElem.descendantsWithTag t c ++
      XmlElem.descendantsListWithTag t cs

end

/-- The Python pattern `e.find(t).text if e.find(t) is not None else dflt`
(the value is a `str`-or-`None`; `dflt` is itself such a value). -/
def XmlElem.findText (e : XmlElem) (t : String) (dflt : Option String) : Option String :=
  match e.find t with
  | some c => c.text
  | none => dflt

/-! ## Canonical finding record
Mirrors the dict built by the two `_parse_zap_*` methods. Fields that the
XML path reads via `.text` can be Python `None`, hence `Option String`;
the JSON path always stores strings (`some`). `risk` is always a string. -/

structure Finding where
  id : Option String
  name : Option String
  risk : String
  confidence : Option String
  description : Option String
  solution : Option String
  reference : Option String
  instances : Nat
  urls : List (Option String)
  cwe_id : Option String
  wasc_id : Option String
  source : String
deriving DecidableEq, Repr

/-- Auxiliary for `pySplitChar`: walk the characters, cutting at every
separator; `acc` holds the current piece reversed. -/
def splitCharAux (sep : Char) : List Char → List Char → List String
  | [], acc => [String.mk acc.reverse]
  | c :: cs, acc =>
    if c = sep then String.mk acc.reverse :: splitCharAux sep cs []
    else splitCharAux sep cs (c :: acc)

/-- Python `s.split(sep)` for a one-character separator: the pieces
between every occurrence of the character, empty pieces kept; the result
is never the empty list. (Structurally recursive so that it evaluates
inside the kernel, unlike `String.splitOn`.) -/
def pySplitChar (sep : Char) (s : String) : List String :=
  splitCharAux sep s.data []

/-- The `risk_map` dict of `_parse_zap_alert` with the `.get` default. -/
def risk_map_json (s : String) : String :=
  if s = "High" then "high"
  else if s = "Medium" then "medium"
  else if s = "Low" then "low"
  else if s = "Informational" then "informational"
  else "unknown"

/-- Embeds `SecurityReportAnalyzer._parse_zap_alert`. In Python, splitting
riskdesc on a single space never yields an empty list, so indexing the
result at zero is `headD` with an unused default. -/
def parse_zap_alert (alert : JsonAlert) : Finding :=
  let risk_desc := alert.riskdesc.getD "Unknown"
  let risk := risk_map_json ((pySplitChar ' ' risk_desc).headD "")
  { id := some (alert.pluginid.getD "unknown")
    name := some (alert.name.getD "Unknown Alert")
    risk := risk
    confidence := some (alert.confidence.getD "Unknown")
    description := some (alert.desc.getD "")
    solution := some (alert.solution.getD "")
    reference := some (alert.reference.getD "")
    instances := (alert.instances.getD []).length
    urls := (alert.instances.getD []).map (fun inst => some (inst.uri.getD ""))
    cwe_id := some (alert.cweid.getD "")
    wasc_id := some (alert.wascid.getD "")
    source := "ZAP" }

/-- The `risk_map` dict of `_parse_zap_xml_alert`; the lookup key can be
Python `None` (riskcode element present with no text), which is not a key
of the dict, so `.get` returns the default. -/
def risk_map_xml (k : Option String) : String :=
  match k with
  | some s =>
    if s = "3" then "high"
    else if s = "2" then "medium"
    else if s = "1" then "low"
    else if s = "0" then "informational"
    else "unknown"
  | none => "unknown"

/-- Embeds `SecurityReportAnalyzer._parse_zap_xml_alert`. The url list keeps only
instances that have a `uri` child (the comprehension has an
`if inst.find(uri) is not None` filter); each kept entry is the text of that child, which may itself be `None`. -/
def parse_zap_xml_alert (alert : XmlElem) : Finding :=
  let risk := risk_map_xml (alert.findText "riskcode" (some "0"))
  let instances := alert.findInstancesPath
  { id := alert.findText "pluginid" (some "unknown")
    name := alert.findText "name" (some "Unknown Alert")
    risk := risk
    confidence := alert.findText "confidence" (some "Unknown")
    description := alert.findText "desc" (some "")
    solution := alert.findText "solution" (some "")
    reference := alert.findText "reference" (some "")
    instances := instances.length
    urls := instances.filterMap (fun inst => (inst.find "uri").map XmlElem.text)
    cwe_id := alert.findText "cweid" (some "")
    wasc_id := alert.findText "wascid" (some "")
    source := "ZAP" }

/-! ## Risk summary (the `risk_summary` dict of `__init__`) -/

structure RiskSummary where
  critical : Nat
  high : Nat
  medium : Nat
  low : Nat
  informational : Nat
deriving DecidableEq, Repr

/-- The zero-initialized summary from `__init__`. -/
def RiskSummary.init : RiskSummary :=
  { critical := 0, high := 0, medium := 0, low := 0, informational := 0 }

/-- Embeds `sum(self.risk_summary.values())`. -/
def RiskSummary.total (rs : RiskSummary) : Nat :=
  rs.critical + rs.high + rs.medium + rs.low + rs.informational

/-- Embeds `SecurityReportAnalyzer._update_risk_summary`: increment the bucket if
`risk` is one of the five keys, otherwise leave the summary unchanged. -/
def update_risk_summary (rs : RiskSummary) (risk : String) : RiskSummary :=
  if risk = "critical" then { rs with critical := rs.critical + 1 }
  else if risk = "high" then { rs with high := rs.high + 1 }
  else if risk = "medium" then { rs with medium := rs.medium + 1 }
  else if risk = "low" then { rs with low := rs.low + 1 }
  else if risk = "informational" then { rs with informational := rs.informational + 1 }
  else rs

/-! ## Recommendation record and engine -/

structure Recommendation where
  priority : String
  finding_type : Option String
  count : Nat
  risk : String
  description : Option String
  solution : Option String
  affected_urls : List (Option String)
  cwe_id : Option String
deriving DecidableEq, Repr

/-- Per-run analyzer state: the three collections owned by
`SecurityReportAnalyzer` (`self.findings`, `self.recommendations`,
`self.risk_summary`). -/
structure AnalyzerState where
  findings : List Finding
  recommendations : List Recommendation
  risk_summary : RiskSummary
deriving DecidableEq, Repr

/-- Embeds `SecurityReportAnalyzer.__init__`. -/
def analyzer_init : AnalyzerState :=
  { findings := [], recommendations := [], risk_summary := RiskSummary.init }

/-- One step of the grouping loop of `generate_recommendations`: groups are
an insertion-ordered map from name to members, kept here as
(key, first-seen member, later members). A Python dict preserves key
insertion order, and appending to the per-key list preserves member
order. -/
def addToGroups (groups : List (Option String × Finding × List Finding)) (f : Finding) :
    List (Option String × Finding × List Finding) :=
  if groups.any (fun g => decide (g.1 = f.name)) then
    groups.map (fun g => if g.1 = f.name then (g.1, g.2.1, g.2.2 ++ [f]) else g)
  else
    groups ++ [(f.name, f, [])]

/-- The `finding_types` grouping loop of `generate_recommendations`. -/
def groupByName (l : List Finding) : List (Option String × Finding × List Finding) :=
  l.foldl addToGroups []

/-- Python `list(set(xs))`: deduplication; the set iteration order is
unspecified in Python, modelled as first-occurrence order. -/
def pyListSet (l : List (Option String)) : List (Option String) :=
  l.foldl (fun acc x => if x ∈ acc then acc else acc ++ [x]) []

/-- The description truncation of `generate_recommendations`: a description
longer than 200 characters is cut at 200 characters and the three-dot
ellipsis marker is appended; when the first-seen member of a group
carries description `None` (possible only via the XML path), taking
`len` of it raises `TypeError`, modelled as `none`. -/
def truncate_description : Option String → Option (Option String)
  | none => none
  | some s =>
    some (some (if s.length > 200 then String.mk (s.data.take 200) ++ "..." else s))

/-- The body of the per-group loop of `generate_recommendations`:
the recommendation dict built for one group, or `none` on the
`TypeError` described at `truncate_description`. -/
def mkRecommendation (key : Option String) (first : Finding) (rest : List Finding) :
    Option Recommendation :=
  match truncate_description first.description with
  | none => none
  | some d =>
    some { priority :=
             if first.risk = "critical" ∨ first.risk = "high" then "HIGH"
             else if first.risk = "medium" then "MEDIUM"
             else "LOW"
           finding_type := key
           count := (first :: rest).length
           risk := first.risk
           description := d
           solution := first.solution
           affected_urls := (pyListSet ((first :: rest).flatMap (fun f => f.urls))).take 5
           cwe_id := first.cwe_id }

/-- The per-group loop of `generate_recommendations`: one recommendation
appended per group, in group insertion order; `none` if any group raises. -/
def buildRecommendations :
    List (Option String × Finding × List Finding) → Option (List Recommendation)
  | [] => some []
  | g :: gs =>
    match mkRecommendation g.1 g.2.1 g.2.2 with
    | none => none
    | some r =>
      match buildRecommendations gs with
      | none => none
      | some rs => some (r :: rs)

/-- The `priority_order` dict of `generate_recommendations` with the `.get`
default 3. -/
def priority_order (p : String) : Nat :=
  if p = "HIGH" then 0 else if p = "MEDIUM" then 1 else if p = "LOW" then 2 else 3

/-- The `risk_order` dict of `generate_recommendations` with the `.get`
default 5. -/
def risk_order (r : String) : Nat :=
  if r = "critical" then 0
  else if r = "high" then 1
  else if r = "medium" then 2
  else if r = "low" then 3
  else if r = "informational" then 4
  else 5

/-- The sort key `lambda x: (priority_order.get(...), risk_order.get(...))`. -/
def recKey (r : Recommendation) : Nat × Nat :=
  (priority_order r.priority, risk_order r.risk)

/-- Python tuple comparison on the sort key (lexicographic). -/
def recLE (a b : Recommendation) : Bool :=
  decide ((recKey a).1 < (recKey b).1) ||
    (decide ((recKey a).1 = (recKey b).1) && decide ((recKey a).2 ≤ (recKey b).2))

/-- One step of a stable insertion sort with comparator `recLE`: the new
element is placed after every existing element that compares
less-or-equal to it, so elements with equal keys keep their relative
order. -/
def insertSorted (r : Recommendation) : List Recommendation → List Recommendation
  | [] => [r]
  | x :: xs => if recLE x r then x :: insertSorted r xs else r :: x :: xs

/-- Python `list.sort(key=...)` is a stable sort; the output of a stable
sort is uniquely determined by the comparator and the input order, so it
is modelled here by stable insertion sort. -/
def sortRecommendations (l : List Recommendation) : List Recommendation :=
  l.foldl (fun acc r => insertSorted r acc) []

/-- Embeds `SecurityReportAnalyzer.generate_recommendations`: appends one
recommendation per group of `self.findings` to `self.recommendations`
(which is NOT cleared first), then stable-sorts the whole stored list by
(priority rank, risk rank). `none` models the uncaught `TypeError` of
`truncate_description`. -/
def generate_recommendations (st : AnalyzerState) : Option AnalyzerState :=
  match buildRecommendations (groupByName st.findings) with
  | none => none
  | some newRecs =>
    some { st with recommendations := sortRecommendations (st.recommendations ++ newRecs) }

/-! ## Executive summary and report rendering -/

/-- The risk-distribution block of the executive summary: the tail of the
f-string after the status line. -/
def risk_distribution_block (rs : RiskSummary) : String :=
  "\n\n**Risk Distribution:**\n- Critical: " ++ toString rs.critical ++
    "\n- High: " ++ toString rs.high ++ "\n- Medium: " ++ toString rs.medium ++
    "\n- Low: " ++ toString rs.low ++ "\n- Informational: " ++ toString rs.informational ++
    "\n\n**Total Findings:** " ++ toString rs.total ++ "\n"

/-- Embeds `SecurityReportAnalyzer.generate_executive_summary`. `total_findings`
is the sum of the five summary buckets, not the length of the finding
list. -/
def generate_executive_summary (rs : RiskSummary) : String :=
  let total_findings := rs.total
  if total_findings = 0 then
    "✅ **EXCELLENT**: No security vulnerabilities were identified during the assessment."
  else
    let critical_high := rs.critical + rs.high
    let status :=
      if critical_high = 0 then
        "✅ **GOOD**: No critical or high-risk vulnerabilities found."
      else if critical_high ≤ 3 then
        "⚠️ **ATTENTION REQUIRED**: Few high-risk vulnerabilities identified."
      else
        "🚨 **IMMEDIATE ACTION REQUIRED**: Multiple high-risk vulnerabilities found."
    "\n" ++ status ++ risk_distribution_block rs

/-- The per-row percentage of the risk table in
`generate_detailed_report`: `(count / total * 100) if total > 0 else 0`,
as exact rational arithmetic (the rendered text then rounds it to one
decimal place). -/
def percentage (count total : Nat) : ℚ :=
  if total > 0 then (count : ℚ) / (total : ℚ) * 100 else 0

/-- The rows of the risk table of `generate_detailed_report`: the loop
`for risk, count in self.risk_summary.items()` in dict insertion order. -/
def risk_table_rows (rs : RiskSummary) : List (String × Nat × ℚ) :=
  [("critical", rs.critical, percentage rs.critical rs.total),
   ("high", rs.high, percentage rs.high rs.total),
   ("medium", rs.medium, percentage rs.medium rs.total),
   ("low", rs.low, percentage rs.low rs.total),
   ("informational", rs.informational, percentage rs.informational rs.total)]

/-- The content of the document written by
`SecurityReportAnalyzer.generate_detailed_report`, with the markdown
layout and the generation timestamp abstracted away: which sections are
rendered and from which data they are computed. -/
structure ReportDocument where
  executive_summary : String
  risk_rows : List (String × Nat × ℚ)
  top_recommendations : List Recommendation
  all_findings : List Finding
deriving DecidableEq, Repr

/-- Embeds `SecurityReportAnalyzer.generate_detailed_report`: the document
contains the executive summary, the risk table, the first 10
HIGH-priority recommendations, and every raw finding. -/
def generate_detailed_report (st : AnalyzerState) : ReportDocument :=
  { executive_summary := generate_executive_summary st.risk_summary
    risk_rows := risk_table_rows st.risk_summary
    top_recommendations :=
      (st.recommendations.filter (fun r => decide (r.priority = "HIGH"))).take 10
    all_findings := st.findings }

/-! ## Orchestration (`analyze_all_reports`) -/

/-- A file in the reports directory. A file is raw bytes; `jsonContent`
(resp. `xmlContent`) is the result the analyzer would get from
`json.load` (resp. `ET.parse`) on it, `none` when that read or parse
raises. -/
structure FSFile where
  filename : String
  jsonContent : Option JsonReport
  xmlContent : Option XmlElem

/-- The reports directory as the analyzer observes it: whether it exists,
and its entries in directory-listing order. -/
structure FileSystem where
  dirExists : Bool
  files : List FSFile

/-- Whether `pat` is a leading run of `hay`, on character lists. -/
def charsStartWith : List Char → List Char → Bool
  | _, [] => true
  | [], _ :: _ => false
  | c :: cs, d :: ds => decide (c = d) && charsStartWith cs ds

/-- Whether `pat` occurs contiguously inside `hay`, on character lists. -/
def charsContain (hay pat : List Char) : Bool :=
  charsStartWith hay pat ||
    match hay with
    | [] => false
    | _ :: t => charsContain t pat

/-- Python `needle in hay` on strings. -/
def pyContains (needle hay : String) : Bool :=
  charsContain hay.data needle.data

/-- Python `s.endswith(suf)`. -/
def pyEndsWith (hay suf : String) : Bool :=
  charsStartWith hay.data.reverse suf.data.reverse

/-- Python `s.lower()` (ASCII filenames only are relevant here). -/
def pyLower (s : String) : String :=
  String.mk (s.data.map Char.toLower)

/-- Embeds `SecurityReportAnalyzer.analyze_zap_json_report`: parse failure is
caught (state unchanged); otherwise one finding per alert of the first
site is appended and counted. -/
def analyze_zap_json_report (st : AnalyzerState) (content : Option JsonReport) :
    AnalyzerState :=
  match content with
  | none => st
  | some data =>
    match data.site with
    | some (s0 :: _) =>
      (s0.alerts.getD []).foldl
        (fun acc alert =>
          let finding := parse_zap_alert alert
          { acc with
            findings := acc.findings ++ [finding]
            risk_summary := update_risk_summary acc.risk_summary finding.risk })
        st
    | _ => st

/-- Embeds `SecurityReportAnalyzer.analyze_zap_xml_report`: parse failure is
caught (state unchanged); otherwise one finding per `alertitem`
descendant is appended and counted. -/
def analyze_zap_xml_report (st : AnalyzerState) (content : Option XmlElem) :
    AnalyzerState :=
  match content with
  | none => st
  | some root =>
    (root.descendantsWithTag "alertitem").foldl
      (fun acc alert =>
        let finding := parse_zap_xml_alert alert
        { acc with
          findings := acc.findings ++ [finding]
          risk_summary := update_risk_summary acc.risk_summary finding.risk })
      st

/-- Embeds `SecurityReportAnalyzer.analyze_all_reports`: if the reports directory
does not exist, log and return (state untouched, nothing written,
modelled by `some (st, none)`); otherwise dispatch each file on
(extension, name contains zap), generate recommendations and write the
detailed report. The outer `none` models the uncaught `TypeError`
described at `truncate_description`. -/
def analyze_all_reports (fs : FileSystem) (st : AnalyzerState) :
    Option (AnalyzerState × Option ReportDocument) :=
  if fs.dirExists = false then
    some (st, none)
  else
    let st1 := fs.files.foldl
      (fun acc file =>
        if pyEndsWith file.filename ".json" && pyContains "zap" (pyLower file.filename) then
          analyze_zap_json_report acc file.jsonContent
        else if pyEndsWith file.filename ".xml" && pyContains "zap" (pyLower file.filename) then
          analyze_zap_xml_report acc file.xmlContent
        else acc)
      st
    match generate_recommendations st1 with
    | none => none
    | some st2 => some (st2, some (generate_detailed_report st2))

/-! ## Specification-side vocabulary -/

/-- The risk vocabulary of the specification: the five ordinal levels plus
the sentinel. -/
def canonical_risk_labels : List String :=
  ["critical", "high", "medium", "low", "informational", "unknown"]

/-- The five recognized risk levels (the keys of the risk summary). -/
def recognized_risks : List String :=
  ["critical", "high", "medium", "low", "informational"]

/-! ## Helper lemmas -/

theorem risk_map_json_mem (s : String) : risk_map_json s ∈ canonical_risk_labels := by
  unfold risk_map_json canonical_risk_labels
  split_ifs <;> simp

theorem risk_map_xml_mem (k : Option String) : risk_map_xml k ∈ canonical_risk_labels := by
  unfold risk_map_xml canonical_risk_labels
  rcases k with _ | s
  · simp
  · simp only []
    split_ifs <;> simp

theorem update_risk_summary_total (rs : RiskSummary) (r : String) :
    (update_risk_summary rs r).total =
      rs.total + (if r ∈ recognized_risks then 1 else 0) := by
  unfold update_risk_summary RiskSummary.total recognized_risks
  split_ifs <;> simp_all <;> omega

theorem foldl_update_risk_summary_total (risks : List String) (rs : RiskSummary) :
    (risks.foldl update_risk_summary rs).total =
      rs.total + (risks.filter (fun r => decide (r ∈ recognized_risks))).length := by
  induction risks generalizing rs with
  | nil => simp
  | cons r rest ih =>
    rw [List.foldl_cons, ih, update_risk_summary_total]
    by_cases hr : r ∈ recognized_risks <;> simp [hr, List.filter_cons] <;> omega

/-! ## Claim C3: risk normalization is exhaustive and total -/

/-- C3: risk normalization is exhaustive and total. JSON path: the token
before the first space maps High/Medium/Low/Informational to its level
and any other token (including the token obtained when `riskdesc` is
missing) yields unknown. XML path: codes 3/2/1/0 map to
high/medium/low/informational, any other code yields unknown. Both paths
are total Lean functions (they never raise for any string input), and
every produced risk is one of the six canonical labels. -/
theorem risk_normalization_total :
    (∀ alert : JsonAlert, ∀ s, alert.riskdesc = some s →
      (parse_zap_alert alert).risk =
        (if (pySplitChar ' ' s).headD "" = "High" then "high"
         else if (pySplitChar ' ' s).headD "" = "Medium" then "medium"
         else if (pySplitChar ' ' s).headD "" = "Low" then "low"
         else if (pySplitChar ' ' s).headD "" = "Informational" then "informational"
         else "unknown")) ∧
    (∀ alert : JsonAlert, alert.riskdesc = none → (parse_zap_alert alert).risk = "unknown") ∧
    (∀ alert : JsonAlert, (parse_zap_alert alert).risk ∈ canonical_risk_labels) ∧
    (∀ alert e : XmlElem, alert.find "riskcode" = some e →
      (parse_zap_xml_alert alert).risk =
        (if e.text = some "3" then "high"
         else if e.text = some "2" then "medium"
         else if e.text = some "1" then "low"
         else if e.text = some "0" then "informational"
         else "unknown")) ∧
    (∀ alert : XmlElem, (parse_zap_xml_alert alert).risk ∈ canonical_risk_labels) := by
  refine ⟨?_, ?_, ?_, ?_, ?_⟩
  · intro alert s h
    simp [parse_zap_alert, h, risk_map_json]
  · intro alert h
    simp [parse_zap_alert, h, risk_map_json, pySplitChar, splitCharAux]
  · intro alert
    exact risk_map_json_mem _
  · intro alert e h
    rcases he : e.text with _ | s
    · simp [parse_zap_xml_alert, XmlElem.findText, h, he, risk_map_xml]
    · simp only [parse_zap_xml_alert, XmlElem.findText, h, he, risk_map_xml]
      simp
  · intro alert
    exact risk_map_xml_mem _

/-- A concrete JSON alert whose riskdesc is `High (Warning)`. -/
def jsonAlertHigh : JsonAlert :=
  { pluginid := none, name := none, riskdesc := some "High (Warning)",
    confidence := none, desc := none, solution := none, reference := none,
    instances := none, cweid := none, wascid := none }

/-- Concrete instantiation of `risk_normalization_total`. -/
theorem risk_normalization_total_witness :
    (parse_zap_alert jsonAlertHigh).risk =
      (if (pySplitChar ' ' "High (Warning)").headD "" = "High" then "high"
       else if (pySplitChar ' ' "High (Warning)").headD "" = "Medium" then "medium"
       else if (pySplitChar ' ' "High (Warning)").headD "" = "Low" then "low"
       else if (pySplitChar ' ' "High (Warning)").headD "" = "Informational" then "informational"
       else "unknown") :=
  risk_normalization_total.1 jsonAlertHigh "High (Warning)" rfl

/-! ## Claim C5: the risk summary buckets -/

/-- C5: starting from the zero summary, after all updates the five buckets
sum to exactly the number of findings whose risk is recognized; an update
with any label outside the five keys leaves the summary unchanged; and no
update ever decrements any bucket. -/
theorem risk_summary_buckets (risks : List String) :
    (risks.foldl update_risk_summary RiskSummary.init).total =
        (risks.filter (fun r => decide (r ∈ recognized_risks))).length ∧
    (∀ rs r, r ∉ recognized_risks → update_risk_summary rs r = rs) ∧
    (∀ rs r,
      rs.critical ≤ (update_risk_summary rs r).critical ∧
      rs.high ≤ (update_risk_summary rs r).high ∧
      rs.medium ≤ (update_risk_summary rs r).medium ∧
      rs.low ≤ (update_risk_summary rs r).low ∧
      rs.informational ≤ (update_risk_summary rs r).informational) := by
  refine ⟨?_, ?_, ?_⟩
  · rw [foldl_update_risk_summary_total]
    simp [RiskSummary.init, RiskSummary.total]
  · intro rs r h
    unfold update_risk_summary
    split_ifs with h1 h2 h3 h4 h5 <;> simp_all [recognized_risks]
  · intro rs r
    unfold update_risk_summary
    split_ifs <;> simp

/-- Concrete instantiation of `risk_summary_buckets`. -/
theorem risk_summary_buckets_witness :
    (["high", "unknown", "low", "nonsense"].foldl update_risk_summary RiskSummary.init).total =
        ((["high", "unknown", "low", "nonsense"] :
            List String).filter (fun r => decide (r ∈ recognized_risks))).length ∧
    update_risk_summary RiskSummary.init "unknown" = RiskSummary.init :=
  ⟨(risk_summary_buckets ["high", "unknown", "low", "nonsense"]).1,
   (risk_summary_buckets []).2.1 RiskSummary.init "unknown" (by decide)⟩

/-! ## Claim C7: the executive-summary threshold ladder -/

/-- C7: the executive summary wording is selected by the threshold ladder:
zero total findings gives the no-vulnerabilities wording; a nonzero total
with zero critical-plus-high gives the no-critical/high wording; one to
three critical-plus-high gives the attention-required wording; four or
more gives the immediate-action wording. -/
theorem executive_summary_ladder (rs : RiskSummary) :
    (rs.total = 0 →
      generate_executive_summary rs =
        "✅ **EXCELLENT**: No security vulnerabilities were identified during the assessment.") ∧
    (rs.total ≠ 0 → rs.critical + rs.high = 0 →
      ∃ t, generate_executive_summary rs =
        "\n" ++ "✅ **GOOD**: No critical or high-risk vulnerabilities found." ++ t) ∧
    (1 ≤ rs.critical + rs.high → rs.critical + rs.high ≤ 3 →
      ∃ t, generate_executive_summary rs =
        "\n" ++ "⚠️ **ATTENTION REQUIRED**: Few high-risk vulnerabilities identified." ++ t) ∧
    (4 ≤ rs.critical + rs.high →
      ∃ t, generate_executive_summary rs =
        "\n" ++ "🚨 **IMMEDIATE ACTION REQUIRED**: Multiple high-risk vulnerabilities found." ++ t) := by
  have htot : rs.critical + rs.high ≤ rs.total := by
    unfold RiskSummary.total; omega
  refine ⟨?_, ?_, ?_, ?_⟩
  · intro h
    simp [generate_executive_summary, h]
  · intro h1 h2
    exact ⟨risk_distribution_block rs, by simp [generate_executive_summary, h1, h2]⟩
  · intro h1 h2
    have h0 : ¬ rs.total = 0 := by omega
    have hne : ¬ rs.critical + rs.high = 0 := by omega
    exact ⟨risk_distribution_block rs, by simp [generate_executive_summary, h0, hne, h2]⟩
  · intro h1
    have h0 : ¬ rs.total = 0 := by omega
    have hne : ¬ rs.critical + rs.high = 0 := by omega
    have hgt : ¬ rs.critical + rs.high ≤ 3 := by omega
    exact ⟨risk_distribution_block rs, by simp [generate_executive_summary, h0, hne, hgt]⟩

/-- Concrete instantiation of `executive_summary_ladder`. -/
theorem executive_summary_ladder_witness :
    ∃ t, generate_executive_summary
        { critical := 0, high := 2, medium := 1, low := 0, informational := 0 } =
      "\n" ++ "⚠️ **ATTENTION REQUIRED**: Few high-risk vulnerabilities identified." ++ t :=
  (executive_summary_ladder
      { critical := 0, high := 2, medium := 1, low := 0, informational := 0 }).2.2.1
    (by decide) (by decide)

/-! ## Claim C8: the risk-table percentage column -/

/-- C8: when the total count is zero every row percentage is 0 (no
division is performed); when the total is positive the five percentages
sum to exactly 100 (before display rounding to one decimal place). -/
theorem risk_table_percentages (rs : RiskSummary) :
    (rs.total = 0 → ∀ row ∈ risk_table_rows rs, row.2.2 = 0) ∧
    (0 < rs.total → ((risk_table_rows rs).map (fun row => row.2.2)).sum = 100) := by
  constructor
  · intro h row hrow
    fin_cases hrow <;> simp [percentage, h]
  · intro h
    have ht : (rs.total : ℚ) ≠ 0 := by
      exact_mod_cast Nat.pos_iff_ne_zero.mp h
    simp only [risk_table_rows, List.map_cons, List.map_nil, List.sum_cons, List.sum_nil,
      percentage, if_pos h, add_zero]
    field_simp
    rw [RiskSummary.total]
    push_cast
    ring

/-- Concrete instantiation of `risk_table_percentages`. -/
theorem risk_table_percentages_witness :
    ((risk_table_rows
        { critical := 1, high := 0, medium := 0, low := 0, informational := 2 }).map
      (fun row => row.2.2)).sum = 100 :=
  (risk_table_percentages
      { critical := 1, high := 0, medium := 0, low := 0, informational := 2 }).2
    (by decide)

/-! ## Claim C10: riskcode element missing versus empty -/

/-- C10: in the XML normalizer, an alertitem with no riskcode child gets
risk informational (code 0 is substituted before mapping), while an
alertitem whose riskcode child is present but has empty text (ElementTree
text `None`, also covering an explicit empty string) gets risk unknown. -/
theorem xml_riskcode_defaults (alert : XmlElem) :
    (alert.find "riskcode" = none → (parse_zap_xml_alert alert).risk = "informational") ∧
    (∀ e, alert.find "riskcode" = some e → e.text = none →
      (parse_zap_xml_alert alert).risk = "unknown") ∧
    (∀ e, alert.find "riskcode" = some e → e.text = some "" →
      (parse_zap_xml_alert alert).risk = "unknown") := by
  refine ⟨?_, ?_, ?_⟩
  · intro h
    simp [parse_zap_xml_alert, XmlElem.findText, h, risk_map_xml]
  · intro e he ht
    simp [parse_zap_xml_alert, XmlElem.findText, he, ht, risk_map_xml]
  · intro e he ht
    simp [parse_zap_xml_alert, XmlElem.findText, he, ht, risk_map_xml]

/-- Concrete instantiation of `xml_riskcode_defaults`: an alertitem with no
riskcode child, and one whose riskcode child has no text. -/
theorem xml_riskcode_defaults_witness :
    (parse_zap_xml_alert (.node "alertitem" none [])).risk = "informational" ∧
    (parse_zap_xml_alert
        (.node "alertitem" none [.node "riskcode" none []])).risk = "unknown" :=
  ⟨(xml_riskcode_defaults (.node "alertitem" none [])).1 rfl,
   (xml_riskcode_defaults (.node "alertitem" none [.node "riskcode" none []])).2.1
     (.node "riskcode" none []) rfl rfl⟩

/-! ## Claim C2: instance count versus url-list length -/

theorem length_filterMap_eq_length_iff {α β : Type} (f : α → Option β) (l : List α) :
    (l.filterMap f).length = l.length ↔ ∀ x ∈ l, (f x).isSome := by
  induction l with
  | nil => simp
  | cons x xs ih =>
    cases hf : f x with
    | none =>
      simp only [List.filterMap_cons, hf, List.length_cons]
      constructor
      · intro h
        have := List.length_filterMap_le f xs
        omega
      · intro h
        have hx := h x (List.mem_cons_self x xs)
        simp [hf] at hx
    | some b =>
      simp only [List.filterMap_cons, hf, List.length_cons, Nat.add_right_cancel_iff, ih]
      constructor
      · intro h y hy
        rcases List.mem_cons.mp hy with rfl | hy
        · simp [hf]
        · exact h y hy
      · intro h y hy
        exact h y (List.mem_cons_of_mem x hy)

/-- An XML alertitem carrying one instance node that has no uri child. -/
def xmlAlertNoUri : XmlElem :=
  .node "alertitem" none [.node "instances" none [.node "instance" none []]]

/-- C2 as stated is false on the XML path: an instance node without a uri
child is counted by `instances` but filtered out of `urls`. -/
theorem instance_count_urls_cex :
    (parse_zap_xml_alert xmlAlertNoUri).instances ≠
      (parse_zap_xml_alert xmlAlertNoUri).urls.length := by
  decide

/-- C2 amended: in the JSON normalizer `instances` always equals the
length of `urls`; in the XML normalizer `instances` equals the number of
`instances/instance` nodes, the `urls` list keeps only instance nodes
that have a uri child, so its length is at most `instances`, with
equality exactly when every instance node has a uri child. -/
theorem instance_count_urls_amended :
    (∀ alert : JsonAlert,
      (parse_zap_alert alert).instances = (parse_zap_alert alert).urls.length) ∧
    (∀ alert : XmlElem,
      (parse_zap_xml_alert alert).instances = alert.findInstancesPath.length ∧
      (parse_zap_xml_alert alert).urls.length ≤ (parse_zap_xml_alert alert).instances ∧
      ((parse_zap_xml_alert alert).urls.length = (parse_zap_xml_alert alert).instances ↔
        ∀ inst ∈ alert.findInstancesPath, (inst.find "uri").isSome)) := by
  refine ⟨?_, ?_⟩
  · intro alert
    simp [parse_zap_alert]
  · intro alert
    refine ⟨rfl, ?_, ?_⟩
    · simp only [parse_zap_xml_alert]
      exact List.length_filterMap_le _ _
    · simp only [parse_zap_xml_alert]
      rw [length_filterMap_eq_length_iff]
      simp

/-- Concrete instantiation of `instance_count_urls_amended`. -/
theorem instance_count_urls_amended_witness :
    (parse_zap_alert jsonAlertHigh).instances = (parse_zap_alert jsonAlertHigh).urls.length ∧
    (parse_zap_xml_alert xmlAlertNoUri).instances = xmlAlertNoUri.findInstancesPath.length ∧
    (parse_zap_xml_alert xmlAlertNoUri).urls.length ≤
      (parse_zap_xml_alert xmlAlertNoUri).instances :=
  ⟨instance_count_urls_amended.1 jsonAlertHigh,
   (instance_count_urls_amended.2 xmlAlertNoUri).1,
   (instance_count_urls_amended.2 xmlAlertNoUri).2.1⟩

/-! ## Claim C4: report cardinality -/

theorem foldl_ingest_findings {α : Type} (parse : α → Finding) (l : List α)
    (st : AnalyzerState) :
    (l.foldl
        (fun acc a =>
          let finding := parse a
          { acc with
            findings := acc.findings ++ [finding]
            risk_summary := update_risk_summary acc.risk_summary finding.risk })
        st).findings
      = st.findings ++ l.map parse := by
  induction l generalizing st with
  | nil => simp
  | cons a rest ih =>
    rw [List.foldl_cons, ih]
    simp

/-- C4: for a JSON report whose site list is nonempty, one finding is
appended per entry of the alerts array of the first site and the finding
count grows by exactly the alerts count, each with `instances` equal to
the length of the instances array of that alert; for an XML report, the same holds
with `alertitem` elements and `instances/instance` nodes. -/
theorem report_cardinality :
    (∀ (st : AnalyzerState) (data : JsonReport) (s0 : JsonSite) (ss : List JsonSite),
      data.site = some (s0 :: ss) →
      (analyze_zap_json_report st (some data)).findings
          = st.findings ++ (s0.alerts.getD []).map parse_zap_alert ∧
      (analyze_zap_json_report st (some data)).findings.length
          = st.findings.length + (s0.alerts.getD []).length) ∧
    (∀ alert : JsonAlert,
      (parse_zap_alert alert).instances = (alert.instances.getD []).length) ∧
    (∀ (st : AnalyzerState) (root : XmlElem),
      (analyze_zap_xml_report st (some root)).findings
          = st.findings ++ (root.descendantsWithTag "alertitem").map parse_zap_xml_alert ∧
      (analyze_zap_xml_report st (some root)).findings.length
          = st.findings.length + (root.descendantsWithTag "alertitem").length) ∧
    (∀ alert : XmlElem,
      (parse_zap_xml_alert alert).instances = alert.findInstancesPath.length) := by
  refine ⟨?_, ?_, ?_, ?_⟩
  · intro st data s0 ss h
    have he : (analyze_zap_json_report st (some data)).findings
        = st.findings ++ (s0.alerts.getD []).map parse_zap_alert := by
      simp only [analyze_zap_json_report, h]
      exact foldl_ingest_findings parse_zap_alert _ st
    refine ⟨he, ?_⟩
    rw [he]
    simp
  · intro alert
    rfl
  · intro st root
    have he : (analyze_zap_xml_report st (some root)).findings
        = st.findings ++ (root.descendantsWithTag "alertitem").map parse_zap_xml_alert := by
      simp only [analyze_zap_xml_report]
      exact foldl_ingest_findings parse_zap_xml_alert _ st
    refine ⟨he, ?_⟩
    rw [he]
    simp
  · intro alert
    rfl

/-- A concrete JSON report with one site carrying two alerts. -/
def jsonSiteSample : JsonSite := { alerts := some [jsonAlertHigh, jsonAlertHigh] }

/-- A concrete JSON report wrapping `jsonSiteSample`. -/
def jsonReportSample : JsonReport := { site := some [jsonSiteSample] }

/-- Concrete instantiation of `report_cardinality`. -/
theorem report_cardinality_witness :
    (analyze_zap_json_report analyzer_init (some jsonReportSample)).findings.length
      = analyzer_init.findings.length + (jsonSiteSample.alerts.getD []).length :=
  (report_cardinality.1 analyzer_init jsonReportSample jsonSiteSample [] rfl).2

/-! ## Claim C9: missing reports directory -/

/-- C9: when the configured reports directory does not exist,
`analyze_all_reports` returns after the logged diagnostic with the state
untouched and no document written; in particular a fresh analyzer keeps
empty findings, recommendations and a zero risk summary. -/
theorem missing_reports_dir (fs : FileSystem) (h : fs.dirExists = false) :
    (∀ st : AnalyzerState, analyze_all_reports fs st = some (st, none)) ∧
    (analyze_all_reports fs analyzer_init).map
        (fun p => (p.1.findings, p.1.recommendations, p.1.risk_summary, p.2))
      = some ([], [], RiskSummary.init, none) := by
  constructor
  · intro st
    simp [analyze_all_reports, h]
  · simp [analyze_all_reports, h, analyzer_init]

/-- A directory that does not exist, even though files would match the
name heuristics if it did. -/
def missingDir : FileSystem :=
  { dirExists := false
    files := [{ filename := "zap-report.json", jsonContent := some jsonReportSample,
                xmlContent := none }] }

/-- Concrete instantiation of `missing_reports_dir`. -/
theorem missing_reports_dir_witness :
    analyze_all_reports missingDir analyzer_init = some (analyzer_init, none) :=
  (missing_reports_dir missingDir rfl).1 analyzer_init

/-! ## Sorting lemmas: `recLE` is a total preorder and the insertion sort
is sorted, length-preserving and stable (per-key filters preserved). -/

theorem recLE_total (a b : Recommendation) : recLE a b = true ∨ recLE b a = true := by
  unfold recLE
  simp only [Bool.or_eq_true, Bool.and_eq_true, decide_eq_true_eq]
  omega

theorem recLE_trans {a b c : Recommendation} (h1 : recLE a b = true)
    (h2 : recLE b c = true) : recLE a c = true := by
  unfold recLE at h1 h2 ⊢
  simp only [Bool.or_eq_true, Bool.and_eq_true, decide_eq_true_eq] at h1 h2 ⊢
  omega

theorem recLE_congr_right {x y r : Recommendation} (h : recKey y = recKey r) :
    recLE x y = recLE x r := by
  unfold recLE
  rw [h]

theorem recLE_of_key_eq {x r : Recommendation} (h : recKey x = recKey r) :
    recLE x r = true := by
  unfold recLE
  rw [h]
  simp

theorem mem_insertSorted (r x : Recommendation) (l : List Recommendation) :
    x ∈ insertSorted r l ↔ x = r ∨ x ∈ l := by
  induction l with
  | nil => simp [insertSorted]
  | cons y ys ih =>
    unfold insertSorted
    split
    · rw [List.mem_cons, ih, List.mem_cons]
      tauto
    · simp

theorem length_insertSorted (r : Recommendation) (l : List Recommendation) :
    (insertSorted r l).length = l.length + 1 := by
  induction l with
  | nil => rfl
  | cons y ys ih =>
    unfold insertSorted
    split <;> simp [ih]

theorem pairwise_insertSorted (r : Recommendation) (l : List Recommendation)
    (h : l.Pairwise (fun a b => recLE a b = true)) :
    (insertSorted r l).Pairwise (fun a b => recLE a b = true) := by
  induction l with
  | nil => simp [insertSorted]
  | cons y ys ih =>
    rcases List.pairwise_cons.mp h with ⟨hy, hys⟩
    unfold insertSorted
    split
    · rename_i hyr
      refine List.pairwise_cons.mpr ⟨?_, ih hys⟩
      intro z hz
      rcases (mem_insertSorted r z ys).mp hz with rfl | hz
      · exact hyr
      · exact hy z hz
    · rename_i hyr
      have hry : recLE r y = true := by
        rcases recLE_total r y with hh | hh
        · exact hh
        · exact absurd hh hyr
      refine List.pairwise_cons.mpr ⟨?_, h⟩
      intro z hz
      rcases List.mem_cons.mp hz with rfl | hz
      · exact hry
      · exact recLE_trans hry (hy z hz)

theorem filter_insertSorted (k : Nat × Nat) (r : Recommendation)
    (l : List Recommendation) (h : l.Pairwise (fun a b => recLE a b = true)) :
    (insertSorted r l).filter (fun x => decide (recKey x = k)) =
      if recKey r = k then l.filter (fun x => decide (recKey x = k)) ++ [r]
      else l.filter (fun x => decide (recKey x = k)) := by
  induction l with
  | nil =>
    simp only [insertSorted, List.filter_cons, List.filter_nil]
    split_ifs with h1 h2 <;> simp_all
  | cons y ys ih =>
    rcases List.pairwise_cons.mp h with ⟨hy, hys⟩
    unfold insertSorted
    split
    · rename_i hyr
      rw [List.filter_cons, List.filter_cons, ih hys]
      simp only [decide_eq_true_eq]
      split_ifs <;> simp
    · rename_i hyr
      rw [List.filter_cons]
      simp only [decide_eq_true_eq]
      split_ifs with hrk
      · have hnil : (y :: ys).filter (fun x => decide (recKey x = k)) = [] := by
          rw [List.filter_eq_nil_iff]
          intro z hz
          simp only [decide_eq_true_eq]
          intro hzk
          have hzr : recKey z = recKey r := by rw [hzk, hrk]
          rcases List.mem_cons.mp hz with rfl | hz
          · exact hyr (recLE_of_key_eq hzr)
          · exact hyr ((recLE_congr_right hzr).symm.trans (hy z hz))
        rw [hnil]
        simp
      · rfl

theorem pairwise_foldl_insertSorted (l acc : List Recommendation)
    (h : acc.Pairwise (fun a b => recLE a b = true)) :
    (l.foldl (fun acc r => insertSorted r acc) acc).Pairwise
      (fun a b => recLE a b = true) := by
  induction l generalizing acc with
  | nil => exact h
  | cons r rs ih => exact ih _ (pairwise_insertSorted r acc h)

theorem filter_foldl_insertSorted (k : Nat × Nat) (l acc : List Recommendation)
    (h : acc.Pairwise (fun a b => recLE a b = true)) :
    (l.foldl (fun acc r => insertSorted r acc) acc).filter
        (fun x => decide (recKey x = k)) =
      acc.filter (fun x => decide (recKey x = k)) ++
        l.filter (fun x => decide (recKey x = k)) := by
  induction l generalizing acc with
  | nil => simp
  | cons r rs ih =>
    rw [List.foldl_cons, ih _ (pairwise_insertSorted r acc h),
      filter_insertSorted k r acc h, List.filter_cons]
    simp only [decide_eq_true_eq]
    split_ifs <;> simp

theorem length_foldl_insertSorted (l acc : List Recommendation) :
    (l.foldl (fun acc r => insertSorted r acc) acc).length = acc.length + l.length := by
  induction l generalizing acc with
  | nil => rfl
  | cons r rs ih =>
    rw [List.foldl_cons, ih, length_insertSorted]
    simp only [List.length_cons]
    omega

theorem sortRecommendations_pairwise (l : List Recommendation) :
    (sortRecommendations l).Pairwise (fun a b => recLE a b = true) :=
  pairwise_foldl_insertSorted l [] List.Pairwise.nil

theorem sortRecommendations_filter (k : Nat × Nat) (l : List Recommendation) :
    (sortRecommendations l).filter (fun x => decide (recKey x = k)) =
      l.filter (fun x => decide (recKey x = k)) := by
  unfold sortRecommendations
  rw [filter_foldl_insertSorted k l [] List.Pairwise.nil]
  rfl

theorem sortRecommendations_length (l : List Recommendation) :
    (sortRecommendations l).length = l.length := by
  unfold sortRecommendations
  rw [length_foldl_insertSorted]
  simp

/-! ## Deduplication and grouping lemmas -/

theorem mem_foldl_pyListSet (l : List (Option String)) (acc : List (Option String))
    (x : Option String) :
    (x ∈ l.foldl (fun acc y => if y ∈ acc then acc else acc ++ [y]) acc) ↔
      x ∈ acc ∨ x ∈ l := by
  induction l generalizing acc with
  | nil => simp
  | cons y ys ih =>
    rw [List.foldl_cons, ih]
    by_cases hy : y ∈ acc
    · rw [if_pos hy]
      constructor
      · rintro (h | h)
        · exact Or.inl h
        · exact Or.inr (List.mem_cons_of_mem y h)
      · rintro (h | h)
        · exact Or.inl h
        · rcases List.mem_cons.mp h with rfl | h
          · exact Or.inl hy
          · exact Or.inr h
    · rw [if_neg hy]
      simp only [List.mem_append, List.mem_singleton, List.mem_cons]
      tauto

theorem mem_pyListSet (l : List (Option String)) (x : Option String) :
    x ∈ pyListSet l ↔ x ∈ l := by
  unfold pyListSet
  rw [mem_foldl_pyListSet]
  simp

theorem nodup_foldl_pyListSet (l acc : List (Option String)) (h : acc.Nodup) :
    (l.foldl (fun acc y => if y ∈ acc then acc else acc ++ [y]) acc).Nodup := by
  induction l generalizing acc with
  | nil => exact h
  | cons y ys ih =>
    rw [List.foldl_cons]
    by_cases hy : y ∈ acc
    · rw [if_pos hy]
      exact ih _ h
    · rw [if_neg hy]
      refine ih _ ?_
      simp [List.nodup_append, h, hy]

theorem nodup_pyListSet (l : List (Option String)) : (pyListSet l).Nodup :=
  nodup_foldl_pyListSet l [] List.nodup_nil

/-- The distinct finding names in first-seen order: the key sequence of
the grouping dict (specification-side helper). -/
def distinctNames (l : List Finding) : List (Option String) :=
  pyListSet (l.map (fun f => f.name))

theorem groupByName_append (l : List Finding) (f : Finding) :
    groupByName (l ++ [f]) = addToGroups (groupByName l) f := by
  unfold groupByName
  rw [List.foldl_append]
  rfl

theorem pyListSet_append (l : List (Option String)) (x : Option String) :
    pyListSet (l ++ [x]) =
      if x ∈ pyListSet l then pyListSet l else pyListSet l ++ [x] := by
  unfold pyListSet
  rw [List.foldl_append]
  rfl

/-- The grouping loop invariant: the group keys are the distinct names in
first-seen order, and each group holds, in order, exactly the findings
bearing its key (the first-seen member first). -/
theorem groupByName_inv (l : List Finding) :
    (groupByName l).map (fun g => g.1) = distinctNames l ∧
    ∀ g ∈ groupByName l, g.2.1 :: g.2.2 = l.filter (fun f => decide (f.name = g.1)) := by
  induction l using List.reverseRecOn with
  | nil =>
    constructor
    · rfl
    · intro g hg
      simp [groupByName] at hg
  | append_singleton l f ih =>
    obtain ⟨ihk, ihc⟩ := ih
    have hdist : distinctNames (l ++ [f]) =
        if f.name ∈ distinctNames l then distinctNames l
        else distinctNames l ++ [f.name] := by
      unfold distinctNames
      rw [List.map_append]
      exact pyListSet_append _ _
    rw [groupByName_append]
    unfold addToGroups
    by_cases hmem : (groupByName l).any (fun g => decide (g.1 = f.name))
    · rw [if_pos hmem]
      have hf : f.name ∈ distinctNames l := by
        rw [← ihk]
        rcases List.any_eq_true.mp hmem with ⟨g, hg, hgf⟩
        rw [List.mem_map]
        exact ⟨g, hg, of_decide_eq_true hgf⟩
      constructor
      · rw [hdist, if_pos hf, ← ihk, List.map_map]
        apply List.map_congr_left
        intro g hg
        simp only [Function.comp_apply]
        split <;> rfl
      · intro g' hg'
        rcases List.mem_map.mp hg' with ⟨g, hg, hgeq⟩
        rw [List.filter_append]
        by_cases hkey : g.1 = f.name
        · rw [if_pos hkey] at hgeq
          subst hgeq
          simp only [List.filter_cons, List.filter_nil, hkey, decide_eq_true_eq, if_true]
          rw [← List.cons_append, ihc g hg, hkey]
        · rw [if_neg hkey] at hgeq
          subst hgeq
          have hfil : [f].filter (fun x => decide (x.name = g.1)) = [] := by
            simp only [List.filter_cons, List.filter_nil, decide_eq_true_eq]
            rw [if_neg (fun hh => hkey (by rw [← hh]))]
          rw [hfil, List.append_nil]
          exact ihc g hg
    · rw [if_neg hmem]
      have hf : f.name ∉ distinctNames l := by
        rw [← ihk]
        intro hc
        rcases List.mem_map.mp hc with ⟨g, hg, hgf⟩
        exact hmem (List.any_eq_true.mpr ⟨g, hg, decide_eq_true hgf⟩)
      constructor
      · rw [hdist, if_neg hf, List.map_append, ihk]
        rfl
      · intro g' hg'
        rcases List.mem_append.mp hg' with hg | hg
        · rw [List.filter_append]
          have hkey : f.name ≠ g'.1 := by
            intro hc
            apply hf
            rw [← ihk, hc]
            exact List.mem_map.mpr ⟨g', hg, rfl⟩
          have hfil : [f].filter (fun x => decide (x.name = g'.1)) = [] := by
            simp only [List.filter_cons, List.filter_nil, decide_eq_true_eq]
            rw [if_neg hkey]
          rw [hfil, List.append_nil]
          exact ihc g' hg
        · rcases List.mem_singleton.mp hg with rfl
          simp only []
          have hfill : l.filter (fun x => decide (x.name = f.name)) = [] := by
            rw [List.filter_eq_nil_iff]
            intro x hx
            simp only [decide_eq_true_eq]
            intro hxf
            apply hf
            unfold distinctNames
            rw [mem_pyListSet]
            exact List.mem_map.mpr ⟨x, hx, hxf⟩
          rw [List.filter_append, hfill, List.nil_append]
          simp

/-! ## Per-group recommendation lemmas -/

theorem mkRecommendation_isSome (key : Option String) (first : Finding)
    (rest : List Finding) (h : first.description.isSome) :
    ∃ r, mkRecommendation key first rest = some r := by
  rcases hd : first.description with _ | s
  · rw [hd] at h
    cases h
  · unfold mkRecommendation truncate_description
    rw [hd]
    exact ⟨_, rfl⟩

theorem mkRecommendation_spec (key : Option String) (first : Finding)
    (rest : List Finding) (r : Recommendation)
    (h : mkRecommendation key first rest = some r) :
    r.finding_type = key ∧ r.count = (first :: rest).length ∧ r.risk = first.risk ∧
    r.solution = first.solution ∧ r.cwe_id = first.cwe_id ∧
    r.priority = (if first.risk = "critical" ∨ first.risk = "high" then "HIGH"
                  else if first.risk = "medium" then "MEDIUM" else "LOW") := by
  unfold mkRecommendation at h
  rcases hd : truncate_description first.description with _ | d
  · rw [hd] at h
    cases h
  · rw [hd] at h
    cases h
    simp

theorem buildRecommendations_some (gs : List (Option String × Finding × List Finding))
    (h : ∀ g ∈ gs, ∃ r, mkRecommendation g.1 g.2.1 g.2.2 = some r) :
    ∃ rs, buildRecommendations gs = some rs ∧
      List.Forall₂ (fun g r => mkRecommendation g.1 g.2.1 g.2.2 = some r) gs rs := by
  induction gs with
  | nil => exact ⟨[], rfl, List.Forall₂.nil⟩
  | cons g gs ih =>
    obtain ⟨r, hr⟩ := h g (List.mem_cons_self g gs)
    obtain ⟨rs, hrs, hfa⟩ := ih (fun g' hg' => h g' (List.mem_cons_of_mem g hg'))
    refine ⟨r :: rs, ?_, List.Forall₂.cons hr hfa⟩
    unfold buildRecommendations
    rw [hr, hrs]

theorem buildRecommendations_length :
    ∀ (gs : List (Option String × Finding × List Finding)) (rs : List Recommendation),
      buildRecommendations gs = some rs → rs.length = gs.length := by
  intro gs
  induction gs with
  | nil =>
    intro rs h
    cases h
    rfl
  | cons g gs ih =>
    intro rs h
    unfold buildRecommendations at h
    rcases hm : mkRecommendation g.1 g.2.1 g.2.2 with _ | r
    · rw [hm] at h
      cases h
    · rw [hm] at h
      rcases hb : buildRecommendations gs with _ | rs'
      · rw [hb] at h
        cases h
      · rw [hb] at h
        cases h
        simp [ih rs' hb]

theorem forall₂_map_finding_type (gs : List (Option String × Finding × List Finding))
    (rs : List Recommendation)
    (h : List.Forall₂ (fun g r => mkRecommendation g.1 g.2.1 g.2.2 = some r) gs rs) :
    rs.map (fun r => r.finding_type) = gs.map (fun g => g.1) := by
  induction h with
  | nil => rfl
  | cons hgr hrest ih =>
    simp only [List.map_cons, ih, List.cons.injEq, and_true]
    exact (mkRecommendation_spec _ _ _ _ hgr).1

theorem forall₂_exists_left {α β : Type} {R : α → β → Prop} :
    ∀ {l1 : List α} {l2 : List β}, List.Forall₂ R l1 l2 → ∀ b ∈ l2, ∃ a ∈ l1, R a b := by
  intro l1 l2 h
  induction h with
  | nil =>
    intro b hb
    cases hb
  | cons hab hrest ih =>
    intro b hb
    rcases List.mem_cons.mp hb with rfl | hb
    · exact ⟨_, List.mem_cons_self _ _, hab⟩
    · obtain ⟨a, ha, har⟩ := ih b hb
      exact ⟨a, List.mem_cons_of_mem _ ha, har⟩

/-! ## Claim C6: the recommendation engine derivation -/

/-- C6: one run of the engine (starting with an empty stored
recommendation list, on findings whose descriptions are strings) yields
exactly one recommendation per distinct finding name; each entry counts
the findings sharing its name and takes risk, solution, weakness id and
priority (critical/high giving HIGH, medium MEDIUM, otherwise LOW) from
the first-seen member of its group; the stored list is the stable sort of
the per-group list by (priority rank, risk rank): it is sorted, and for
every key the entries with that key keep their first-seen relative
order. -/
theorem generate_recommendations_spec (st : AnalyzerState)
    (hrec : st.recommendations = [])
    (hdesc : ∀ f ∈ st.findings, f.description.isSome) :
    ∃ st' newRecs,
      generate_recommendations st = some st' ∧
      buildRecommendations (groupByName st.findings) = some newRecs ∧
      newRecs.map (fun r => r.finding_type) = distinctNames st.findings ∧
      newRecs.length = (distinctNames st.findings).length ∧
      (distinctNames st.findings).Nodup ∧
      (∀ r ∈ newRecs, ∃ first rest,
        st.findings.filter (fun f => decide (f.name = r.finding_type)) = first :: rest ∧
        r.count = (first :: rest).length ∧
        r.risk = first.risk ∧ r.solution = first.solution ∧ r.cwe_id = first.cwe_id ∧
        r.priority = (if first.risk = "critical" ∨ first.risk = "high" then "HIGH"
                      else if first.risk = "medium" then "MEDIUM" else "LOW")) ∧
      st'.recommendations = sortRecommendations newRecs ∧
      st'.recommendations.Pairwise (fun a b => recLE a b = true) ∧
      (∀ k : Nat × Nat,
        st'.recommendations.filter (fun r => decide (recKey r = k)) =
          newRecs.filter (fun r => decide (recKey r = k))) := by
  obtain ⟨hkeys, hcont⟩ := groupByName_inv st.findings
  have hsome : ∀ g ∈ groupByName st.findings,
      ∃ r, mkRecommendation g.1 g.2.1 g.2.2 = some r := by
    intro g hg
    apply mkRecommendation_isSome
    have hmemf : g.2.1 ∈ st.findings := by
      have hh : g.2.1 ∈ st.findings.filter (fun f => decide (f.name = g.1)) := by
        rw [← hcont g hg]
        exact List.mem_cons_self _ _
      exact List.mem_of_mem_filter hh
    exact hdesc _ hmemf
  obtain ⟨newRecs, hbuild, hfa⟩ := buildRecommendations_some _ hsome
  have hmap : newRecs.map (fun r => r.finding_type) = distinctNames st.findings := by
    rw [forall₂_map_finding_type _ _ hfa, hkeys]
  refine ⟨{ st with recommendations := sortRecommendations (st.recommendations ++ newRecs) },
    newRecs, ?_, hbuild, hmap, ?_, nodup_pyListSet _, ?_, ?_, ?_, ?_⟩
  · unfold generate_recommendations
    rw [hbuild]
  · rw [← hmap, List.length_map]
  · intro r hr
    obtain ⟨g, hg, hgr⟩ := forall₂_exists_left hfa r hr
    obtain ⟨hft, hcount, hrisk, hsol, hcwe, hpr⟩ := mkRecommendation_spec _ _ _ _ hgr
    refine ⟨g.2.1, g.2.2, ?_, hcount, hrisk, hsol, hcwe, hpr⟩
    rw [hft]
    exact (hcont g hg).symm
  · rw [hrec, List.nil_append]
  · exact sortRecommendations_pairwise _
  · intro k
    rw [hrec, List.nil_append]
    exact sortRecommendations_filter k newRecs

/-- A second concrete JSON alert with a distinct name and low risk. -/
def jsonAlertLow : JsonAlert :=
  { pluginid := some "2", name := some "Cookie Without Secure Flag",
    riskdesc := some "Low (Info)", confidence := some "Medium",
    desc := some "cookie flag missing", solution := some "set the flag",
    reference := some "", instances := some [{ uri := some "http://x/b" }],
    cweid := some "614", wascid := some "13" }

/-- A concrete analyzer state holding two findings with distinct names. -/
def sampleState : AnalyzerState :=
  { findings := [parse_zap_alert jsonAlertHigh, parse_zap_alert jsonAlertLow],
    recommendations := [], risk_summary := RiskSummary.init }

/-- Concrete instantiation of `generate_recommendations_spec`. -/
theorem generate_recommendations_spec_witness :
    ∃ st' newRecs,
      generate_recommendations sampleState = some st' ∧
      buildRecommendations (groupByName sampleState.findings) = some newRecs ∧
      newRecs.map (fun r => r.finding_type) = distinctNames sampleState.findings ∧
      newRecs.length = (distinctNames sampleState.findings).length ∧
      (distinctNames sampleState.findings).Nodup ∧
      (∀ r ∈ newRecs, ∃ first rest,
        sampleState.findings.filter (fun f => decide (f.name = r.finding_type))
            = first :: rest ∧
        r.count = (first :: rest).length ∧
        r.risk = first.risk ∧ r.solution = first.solution ∧ r.cwe_id = first.cwe_id ∧
        r.priority = (if first.risk = "critical" ∨ first.risk = "high" then "HIGH"
                      else if first.risk = "medium" then "MEDIUM" else "LOW")) ∧
      st'.recommendations = sortRecommendations newRecs ∧
      st'.recommendations.Pairwise (fun a b => recLE a b = true) ∧
      (∀ k : Nat × Nat,
        st'.recommendations.filter (fun r => decide (recKey r = k)) =
          newRecs.filter (fun r => decide (recKey r = k))) :=
  generate_recommendations_spec sampleState rfl (by decide)

/-! ## Claim C1: the engine run twice -/

theorem generate_recommendations_eq (st : AnalyzerState) (newRecs : List Recommendation)
    (hb : buildRecommendations (groupByName st.findings) = some newRecs) :
    generate_recommendations st =
      some { st with
             recommendations := sortRecommendations (st.recommendations ++ newRecs) } := by
  unfold generate_recommendations
  rw [hb]

theorem addToGroups_ne_nil (gs : List (Option String × Finding × List Finding))
    (f : Finding) (h : gs ≠ []) : addToGroups gs f ≠ [] := by
  unfold addToGroups
  split
  · simpa using h
  · simp

theorem foldl_addToGroups_ne_nil (l : List Finding)
    (gs : List (Option String × Finding × List Finding)) (h : gs ≠ []) :
    l.foldl addToGroups gs ≠ [] := by
  induction l generalizing gs with
  | nil => exact h
  | cons f fs ih => exact ih _ (addToGroups_ne_nil gs f h)

theorem groupByName_ne_nil (l : List Finding) (h : l ≠ []) : groupByName l ≠ [] := by
  rcases l with _ | ⟨f, fs⟩
  · exact absurd rfl h
  · unfold groupByName
    rw [List.foldl_cons]
    apply foldl_addToGroups_ne_nil
    simp [addToGroups]

/-- C1 as stated is false: running the engine a second time on the same
unchanged finding list does not reproduce the recommendation list of the
first run (the second run appends a duplicate of the recommendation of
every group before re-sorting). -/
theorem recommendation_engine_not_idempotent_cex :
    ((generate_recommendations sampleState).bind generate_recommendations).map
        AnalyzerState.recommendations ≠
      (generate_recommendations sampleState).map AnalyzerState.recommendations := by
  decide

/-- C1 amended: the engine is deterministic but not idempotent. The run
does not change the finding list, and derives the same per-group
recommendation list `newRecs` on both runs; but each run appends
`newRecs` to the stored list before sorting, so after the second run the
stored list has `newRecs.length` more entries than after the first (twice
as many when the stored list starts empty) and differs from the list of
the first run whenever the finding list is nonempty. -/
theorem recommendation_engine_second_run (st st1 st2 : AnalyzerState)
    (h1 : generate_recommendations st = some st1)
    (h2 : generate_recommendations st1 = some st2) :
    st1.findings = st.findings ∧
    ∃ newRecs, buildRecommendations (groupByName st.findings) = some newRecs ∧
      st1.recommendations.length = st.recommendations.length + newRecs.length ∧
      st2.recommendations.length = st1.recommendations.length + newRecs.length ∧
      (st.findings ≠ [] → st2.recommendations ≠ st1.recommendations) := by
  rcases hb : buildRecommendations (groupByName st.findings) with _ | newRecs
  · unfold generate_recommendations at h1
    rw [hb] at h1
    cases h1
  · have e1 := generate_recommendations_eq st newRecs hb
    rw [e1] at h1
    have hst1 := Option.some.inj h1
    have hb2 : buildRecommendations (groupByName st1.findings) = some newRecs := by
      rw [← hst1]
      exact hb
    have e2 := generate_recommendations_eq st1 newRecs hb2
    rw [e2] at h2
    have hst2 := Option.some.inj h2
    have hfind : st1.findings = st.findings := by
      rw [← hst1]
    have hrec1 : st1.recommendations =
        sortRecommendations (st.recommendations ++ newRecs) := by
      rw [← hst1]
    have hrec2 : st2.recommendations =
        sortRecommendations (st1.recommendations ++ newRecs) := by
      rw [← hst2]
    refine ⟨hfind, newRecs, rfl, ?_, ?_, ?_⟩
    · rw [hrec1, sortRecommendations_length, List.length_append]
    · rw [hrec2, sortRecommendations_length, List.length_append]
    · intro hne heq
      have hlen : newRecs.length = (groupByName st.findings).length :=
        buildRecommendations_length _ _ hb

      have hgne := groupByName_ne_nil st.findings hne
      have hpos : 0 < newRecs.length := by
        rw [hlen]
        exact List.length_pos.mpr hgne
      have hcon := congrArg List.length heq
      rw [hrec2, sortRecommendations_length, List.length_append] at hcon
      omega

/-- Concrete instantiation of `recommendation_engine_second_run`, at the
two states actually produced by running the engine once and twice on
`sampleState`. -/
def sampleState1 : AnalyzerState :=
  (generate_recommendations sampleState).getD analyzer_init

/-- The state after the second run on `sampleState`. -/
def sampleState2 : AnalyzerState :=
  (generate_recommendations sampleState1).getD analyzer_init

/-- Concrete instantiation of `recommendation_engine_second_run`. -/
theorem recommendation_engine_second_run_witness :
    sampleState1.findings = sampleState.findings ∧
    ∃ newRecs, buildRecommendations (groupByName sampleState.findings) = some newRecs ∧
      sampleState1.recommendations.length =
        sampleState.recommendations.length + newRecs.length ∧
      sampleState2.recommendations.length =
        sampleState1.recommendations.length + newRecs.length ∧
      (sampleState.findings ≠ [] →
        sampleState2.recommendations ≠ sampleState1.recommendations) :=
  recommendation_engine_second_run sampleState sampleState1 sampleState2
    (by decide) (by decide)

end SecurityReports
